import Mathlib

/-
Verification of the eventstore-transfer-tool stream transfer pipeline
(src/access-stream.py and src/export-stream.py).

Modelling conventions, shared by all definitions below:
- HTTP responses are pairs (status, body); the transport is an oracle
  function supplied as an argument.  Response bodies are assumed to be
  well-formed JSON of the shape the code reads (`entries`/`links` for
  collection pages), since the scripts never guard `response.json()`.
- JSON values are modelled by the inductive `Json`; numbers are modelled
  as integers (no claim depends on fractional values).  A line of a
  record-stream file is an `Option Json`: `some j` is a line that
  `json.loads` parses to `j`, `none` is a malformed line
  (`json.JSONDecodeError`).  Writing `json.dumps j` and re-reading the
  line yields `some j` again.
- A Python statement that raises an exception not caught by the code
  (IndexError, KeyError, TypeError) is modelled by an `Option`/dedicated
  constructor result, and `exit()` by a dedicated result constructor.
- The unbounded `while` loops (pagination, projection polling) take a
  fuel argument; the theorems only require enough fuel for the finite
  chains they quantify over.
-/

/-- JSON values as produced by `json.loads`; objects keep field order. -/
inductive Json : Type
  | null : Json
  | bool (b : Bool) : Json
  | num (n : Int) : Json
  | str (s : String) : Json
  | arr (elems : List Json) : Json
  | obj (fields : List (String × Json)) : Json

instance : Inhabited Json := ⟨Json.null⟩

/-- Python `d[k]` on a parsed JSON value: `some` the first binding of key
`k` when `d` is an object containing it; `none` models the uncaught
KeyError / TypeError otherwise. -/
def getField (j : Json) (k : String) : Option Json :=
  match j with
  | .obj fields => (fields.find? (fun p => p.1 == k)).map (fun p => p.2)
  | _ => none

/-- A relation link of an Atom page: `{'relation': ..., 'uri': ...}`. -/
structure Link : Type where
  relation : String
  uri : String
deriving DecidableEq

/-- An entry of a collection page: its `links` list and its `title`. -/
structure Entry : Type where
  links : List Link
  title : String
deriving DecidableEq

/-- A fetched collection page: `data['entries']` and `data['links']`. -/
structure Page : Type where
  entries : List Entry
  links : List Link
deriving DecidableEq

/-- `next((link for link in links if link['relation'] == 'next'), None)`
from `get_stream_events` (src/access-stream.py line 39): the first link
whose relation is `next`. -/
def findNextLink (links : List Link) : Option Link :=
  links.find? (fun lk => lk.relation == "next")

/-- Loop body of `get_stream_events` (src/access-stream.py lines 27-45;
the identical function is also src/export-stream.py lines 11-29).
`fetch url = (status, page)` is the transport oracle; `acc` is the
`events` accumulator; the fuel argument bounds the number of iterations
of the source's unbounded `while stream_url:` loop.  A non-200 status
breaks out of the loop returning the events accumulated so far; so does
the absence of a `next` link, or a falsy (empty) url. -/
def getStreamEventsGo (fetch : String → Nat × Page) :
    Nat → String → List Entry → List Entry
  | 0, _, acc => acc
  | fuel + 1, url, acc =>
    if url == "" then acc
    else
      let resp := fetch url
      if resp.1 != 200 then acc
      else
        let acc2 := acc ++ resp.2.entries
        match findNextLink resp.2.links with
        | some lk => getStreamEventsGo fetch fuel lk.uri acc2
        | none => acc2

/-- `get_stream_events(stream_url, headers)` (src/access-stream.py lines
27-45): walk the `next` links starting from `url`, accumulating every
page's entries, stopping on the first non-200 response or when no `next`
link remains. -/
def get_stream_events (fetch : String → Nat × Page) (fuel : Nat) (url : String) :
    List Entry :=
  getStreamEventsGo fetch fuel url []

/-- A chain of K pages each served with status 200 at its url, every page
but the last linking to the next one's url, the last having no `next`
link.  Urls are nonempty (the loop condition `while stream_url:` would
stop on an empty string). -/
inductive Chain (fetch : String → Nat × Page) : String → List Page → Prop
  | last (url : String) (page : Page) :
      url ≠ "" → fetch url = (200, page) → findNextLink page.links = none →
      Chain fetch url [page]
  | cons (url url2 : String) (page : Page) (lk : Link) (rest : List Page) :
      url ≠ "" → fetch url = (200, page) → findNextLink page.links = some lk →
      lk.uri = url2 → Chain fetch url2 rest →
      Chain fetch url (page :: rest)

/-- A chain of J-1 pages served with status 200 and linked as in `Chain`,
followed by one url whose fetch returns a non-200 status. -/
inductive ChainFail (fetch : String → Nat × Page) : String → List Page → Prop
  | fail (url : String) :
      url ≠ "" → (fetch url).1 ≠ 200 → ChainFail fetch url []
  | cons (url url2 : String) (page : Page) (lk : Link) (rest : List Page) :
      url ≠ "" → fetch url = (200, page) → findNextLink page.links = some lk →
      lk.uri = url2 → ChainFail fetch url2 rest →
      ChainFail fetch url (page :: rest)

lemma getStreamEventsGo_chain (fetch : String → Nat × Page) :
    ∀ (pages : List Page) (url : String), Chain fetch url pages →
    ∀ (fuel : Nat), pages.length ≤ fuel →
    ∀ (acc : List Entry),
      getStreamEventsGo fetch fuel url acc = acc ++ (pages.map Page.entries).flatten := by
  intro pages url hchain
  induction hchain with
  | last url page hurl hf hn =>
    intro fuel hfuel acc
    match fuel, hfuel with
    | fuel + 1, _ =>
      simp [getStreamEventsGo, hurl, hf, hn]
  | cons url url2 page lk rest hurl hf hn hlk _ ih =>
    intro fuel hfuel acc
    match fuel, hfuel with
    | fuel + 1, hfuel =>
      have hrest : rest.length ≤ fuel := by
        simpa [Nat.succ_le_succ_iff] using hfuel
      simp [getStreamEventsGo, hurl, hf, hn, hlk, ih fuel hrest]

lemma getStreamEventsGo_chainFail (fetch : String → Nat × Page) :
    ∀ (pages : List Page) (url : String), ChainFail fetch url pages →
    ∀ (fuel : Nat), pages.length + 1 ≤ fuel →
    ∀ (acc : List Entry),
      getStreamEventsGo fetch fuel url acc = acc ++ (pages.map Page.entries).flatten := by
  intro pages url hchain
  induction hchain with
  | fail url hurl hf =>
    intro fuel hfuel acc
    match fuel, hfuel with
    | fuel + 1, _ =>
      have : (fetch url).1 != 200 := by simpa using hf
      simp [getStreamEventsGo, hurl, this]
  | cons url url2 page lk rest hurl hf hn hlk _ ih =>
    intro fuel hfuel acc
    match fuel, hfuel with
    | fuel + 1, hfuel =>
      have hrest : rest.length + 1 ≤ fuel := by
        simpa [Nat.succ_le_succ_iff] using hfuel
      simp [getStreamEventsGo, hurl, hf, hn, hlk, ih fuel hrest]

/-- The first (self) link of an entry, `entry['links'][0]['uri']`:
`none` models the uncaught IndexError when the links list is empty. -/
def selfUri (e : Entry) : Option String :=
  e.links.head?.map Link.uri

/-- The first link's uri of an entry, defaulting to the empty string;
only meaningful for entries with a nonempty links list. -/
def selfUriD (e : Entry) : String :=
  match e.links with
  | [] => ""
  | lk :: _ => lk.uri

/-- Loop body of `export_events_to_file` (src/access-stream.py lines
78-85; the same loop is `export_events` of src/export-stream.py lines
31-38), already applied to the reversed entry list.  For each entry it
fetches `entry['links'][0]['uri']`; a 200 response appends the body as
one line, any other status writes nothing for that entry.  `none` models
the uncaught IndexError on an entry with no links (the export aborts). -/
def exportEventsGo (fetchEvent : String → Nat × Json) : List Entry → Option (List Json)
  | [] => some []
  | e :: rest =>
    match e.links with
    | [] => none
    | lk :: _ =>
      let resp := fetchEvent lk.uri
      if resp.1 == 200 then (exportEventsGo fetchEvent rest).map (resp.2 :: ·)
      else exportEventsGo fetchEvent rest

/-- `export_events_to_file(event_file_path, events, headers)`
(src/access-stream.py lines 78-85): reverse the entry list (oldest
first), fetch each entry's content via its self link, and write each 200
body as one JSON line.  The result is the list of written lines, `none`
when the loop raised. -/
def export_events_to_file (fetchEvent : String → Nat × Json) (events : List Entry) :
    Option (List Json) :=
  exportEventsGo fetchEvent events.reverse

/-- The `eventId`, `eventType` and `data` fields of a record's `content`
object, read exactly as `import_event` does (src/access-stream.py lines
90-94): `none` models the uncaught KeyError/TypeError when the record is
not an object with those nested fields. -/
def recordTriple (r : Json) : Option (Json × Json × Json) :=
  match getField r "content" with
  | none => none
  | some c =>
    match getField c "eventId" with
    | none => none
    | some i =>
      match getField c "eventType" with
      | none => none
      | some t =>
        match getField c "data" with
        | none => none
        | some d => some (i, t, d)

/-- The body POSTed by `import_event`: a one-element array holding the
object with the record's three fields (src/access-stream.py lines 90-96). -/
def payloadJson (t : Json × Json × Json) : Json :=
  .arr [.obj [("eventId", t.1), ("eventType", t.2.1), ("data", t.2.2)]]

/-- The payload `import_event` builds from a record, `none` when the
field accesses raise. -/
def mkPayload (r : Json) : Option Json :=
  (recordTriple r).map payloadJson

/-- `response.status_code not in [200, 201]` negated: the success test of
`import_event` (src/access-stream.py line 99). -/
def isOkStatus (s : Nat) : Bool :=
  s == 200 || s == 201

/-- Loop body of `import_events` (src/access-stream.py lines 107-124).
`lines` are the remaining file lines (`some j` parses to `j`, `none` is
malformed); `postStatus k` is the HTTP status of the (k+1)-th POST the
run makes; `s`/`f` are the success/failure counters.  A malformed line
is caught (`json.JSONDecodeError`) and skipped; a parsed line is turned
into a payload (a raise there aborts the whole loop: first component
`none`) and POSTed, 200/201 incrementing `s`, anything else `f`.  The
second component is the list of POSTed payloads in order, including
those sent before an abort. -/
def importEventsGo (postStatus : Nat → Nat) :
    List (Option Json) → Nat → Nat → Nat → Option (Nat × Nat) × List Json
  | [], _, s, f => (some (s, f), [])
  | none :: rest, k, s, f => importEventsGo postStatus rest k s f
  | some ev :: rest, k, s, f =>
    match mkPayload ev with
    | none => (none, [])
    | some payload =>
      let res :=
        if isOkStatus (postStatus k) then importEventsGo postStatus rest (k + 1) (s + 1) f
        else importEventsGo postStatus rest (k + 1) s (f + 1)
      (res.1, payload :: res.2)

/-- `import_events(filename, stream_url, headers)` (src/access-stream.py
lines 107-124): submit every parsed line in file order, counting
successes and failures.  First component: the final
`(success_count, failure_count)` pair, `none` when a valid-JSON line
without the record fields raised out of the loop; second component: the
POSTed payloads in order. -/
def import_events (postStatus : Nat → Nat) (lines : List (Option Json)) :
    Option (Nat × Nat) × List Json :=
  importEventsGo postStatus lines 0 0 0

/-- Split a character list at every occurrence of `c`, like Python
`str.split` with a one-character separator. -/
def splitOnChar (c : Char) : List Char → List (List Char)
  | [] => [[]]
  | x :: xs =>
    match splitOnChar c xs with
    | [] => [[]]
    | g :: gs => if x == c then [] :: g :: gs else (x :: g) :: gs

/-- Whether `p` is an initial segment of `l`. -/
def isPrefixList : List Char → List Char → Bool
  | [], _ => true
  | _ :: _, [] => false
  | a :: as, b :: bs => a == b && isPrefixList as bs

/-- Python `s.endswith(suffix)`. -/
def strEndsWith (s sfx : String) : Bool :=
  isPrefixList sfx.data.reverse s.data.reverse

/-- `PurePath.name` of a path string: its last nonempty `/`-separated
component (empty for the root or the empty path). -/
def pathNameChars (p : String) : List Char :=
  ((splitOnChar '/' p.data).filter (fun g => !g.isEmpty)).getLastD []

/-- `''.join(Path(p).suffixes)` as computed by `export_events`,
`process_import_file` and `validate_file` (src/access-stream.py lines
49-50, 128-129, 284-285), following CPython's `PurePath.suffixes`: empty
when the name ends with a dot, else every dot-suffix of the name after
its leading dots, concatenated. -/
def joinedSuffixes (p : String) : String :=
  let name := pathNameChars p
  match name.getLast? with
  | none => ""
  | some c =>
    if c == '.' then ""
    else
      let core := name.dropWhile (fun x => x == '.')
      match splitOnChar '.' core with
      | [] => ""
      | _ :: rest => ⟨(rest.map (fun g => '.' :: g)).flatten⟩

/-- The two archive containers the codec supports. -/
inductive ArchiveKind : Type
  | zip : ArchiveKind
  | tarxz : ArchiveKind
deriving DecidableEq

/-- Observable outcome of `export_events` (src/access-stream.py lines
48-75): a record stream written directly at the target path, an archive
written at the target path holding named members (each a list of JSON
lines), an uncaught exception from the materializer loop, or the
unsupported-extension rejection (which writes nothing). -/
inductive ExportResult : Type
  | file (lines : List Json) : ExportResult
  | archive (kind : ArchiveKind) (members : List (String × List Json)) : ExportResult
  | raised : ExportResult
  | unsupported : ExportResult

/-- `export_events(events, file_name, headers)` (src/access-stream.py
lines 48-75): dispatch on the joined suffixes of the target path.
`.json` or no extension writes the record stream directly; `.zip` and
`.tar.xz` write it to a temporary `events.json` and wrap that single
member in the corresponding container; anything else is rejected. -/
def export_events (fetchEvent : String → Nat × Json) (events : List Entry)
    (fname : String) : ExportResult :=
  let ext := joinedSuffixes fname
  if ext == ".json" || ext == "" then
    match export_events_to_file fetchEvent events with
    | some lines => .file lines
    | none => .raised
  else if ext == ".zip" || ext == ".tar.xz" then
    match export_events_to_file fetchEvent events with
    | none => .raised
    | some lines =>
      if ext == ".zip" then .archive .zip [("events.json", lines)]
      else .archive .tarxz [("events.json", lines)]
  else .unsupported

/-- Observable outcome of `process_import_file` (src/access-stream.py
lines 127-165): a completed (or mid-file aborted) run of `import_events`
with its counts and POSTed payloads, the `exit()` taken when the
extracted archive does not hold exactly one `.json` member (no POST is
ever made on that path), or the unsupported-extension rejection. -/
inductive ProcResult : Type
  | imported (counts : Option (Nat × Nat)) (posts : List Json) : ProcResult
  | fatal : ProcResult
  | unsupported : ProcResult

/-- The append requests a `process_import_file` outcome sent to the
store: only the `import_events` path POSTs anything. -/
def procPosts : ProcResult → List Json
  | .imported _ posts => posts
  | .fatal => []
  | .unsupported => []

/-- The archive half of `process_import_file` (src/access-stream.py
lines 137-162): after extraction the temporary directory holds the
archive's members (modelled as a flat list of named files, matching the
single-member archives the exporter writes); the `.json` members are
listed, more than one or none calls `exit()`, and otherwise the single
`.json` member is fed to `import_events`. -/
def importExtracted (postStatus : Nat → Nat)
    (members : List (String × List (Option Json))) : ProcResult :=
  let jsonFiles := members.filter (fun m => strEndsWith m.1 ".json")
  if jsonFiles.length > 1 then .fatal
  else if jsonFiles.length == 0 then .fatal
  else
    let r := import_events postStatus (jsonFiles.headD ("", [])).2
    .imported r.1 r.2

/-- `process_import_file(filename, stream_url, headers)`
(src/access-stream.py lines 127-165): dispatch on the joined suffixes of
the path.  `.json` or no extension feeds the file's lines (`readLines`)
straight to `import_events`; `.zip` and `.tar.xz` extract the archive's
members and process them via `importExtracted`; anything else is
rejected.  `readLines` is what reading the path as a record stream
yields and `members` what extracting it as an archive yields; the
dispatch consults exactly one of the two. -/
def process_import_file (postStatus : Nat → Nat) (fname : String)
    (readLines : List (Option Json))
    (members : List (String × List (Option Json))) : ProcResult :=
  let ext := joinedSuffixes fname
  if ext == ".json" || ext == "" then
    let r := import_events postStatus readLines
    .imported r.1 r.2
  else if ext == ".zip" || ext == ".tar.xz" then
    importExtracted postStatus members
  else .unsupported

/-- Re-reading an export artifact for import: a directly written record
stream is read back as its lines (each parsing to the value it was
serialized from), an archive extracts to its members; a raised or
rejected export leaves nothing to import. -/
def importExported (postStatus : Nat → Nat) (fname : String) :
    ExportResult → Option ProcResult
  | .file lines => some (process_import_file postStatus fname (lines.map some) [])
  | .archive _ members =>
      some (process_import_file postStatus fname []
        (members.map (fun m => (m.1, m.2.map some))))
  | .raised => none
  | .unsupported => none

/-- The `progress` field of a projection status body, defaulting to 0
(`data.get("progress", 0)`, src/access-stream.py line 195); numeric
JSON values are modelled as integers. -/
def progressOf (j : Json) : Int :=
  match getField j "progress" with
  | some (.num n) => n
  | _ => 0

/-- Polling loop of `run_projection` (src/access-stream.py lines
191-202): fetch the projection status until a 200 body reports progress
at least 100, or any non-200 response breaks the loop early.
`statusFetch k` is the (k+1)-th status response; the fuel argument
bounds the unbounded `while True:` loop. -/
def pollProjection (statusFetch : Nat → Nat × Json) : Nat → Nat → Unit
  | _, 0 => ()
  | k, fuel + 1 =>
    let resp := statusFetch k
    if resp.1 == 200 then
      if progressOf resp.2 ≥ 100 then () else pollProjection statusFetch (k + 1) fuel
    else ()

/-- `run_projection(base_url, projection_name)` (src/access-stream.py
lines 169-208): POST the enable command — a non-200 response calls
`exit()` (`none`); otherwise poll the status to completion and POST the
disable command, whose failure is only reported, never fatal. -/
def run_projection (enableStatus : Nat) (statusFetch : Nat → Nat × Json)
    (fuel : Nat) (disableStatus : Nat) : Option Unit :=
  if enableStatus != 200 then none
  else
    let _ := pollProjection statusFetch 0 fuel
    let _ := disableStatus
    some ()

/-- Python `s.replace(pat, '', 1)`: remove the first occurrence of `pat`
from `s` (src/access-stream.py line 221 with `pat = "0@"`). -/
def removeFirstOcc (pat : List Char) : List Char → List Char
  | [] => []
  | x :: xs =>
    if isPrefixList pat (x :: xs) then (x :: xs).drop pat.length
    else x :: removeFirstOcc pat xs

/-- String wrapper of `removeFirstOcc`. -/
def replaceFirst (s pat : String) : String :=
  ⟨removeFirstOcc pat.data s.data⟩

/-- Modelled from the spec (sentence: entries are transformed into
stream names by stripping a fixed positional prefix token from each
title): remove the token `0@` from the front of the title when present,
leaving the rest unchanged; a title not starting with the token is left
as it is.  Stated for comparison with the source's `replaceFirst`. -/
def stripPrefixToken (t : String) : String :=
  if isPrefixList "0@".data t.data then ⟨t.data.drop 2⟩ else t

/-- Observable outcome of `get_available_streams` (src/access-stream.py
lines 211-225): the process exit taken inside `run_projection`, the
`None` returned on a non-200 index fetch, or the list of stream names. -/
inductive StreamsResult : Type
  | exited : StreamsResult
  | failed : StreamsResult
  | streams (names : List String) : StreamsResult
deriving DecidableEq

/-- `get_available_streams(base_url, headers)` (src/access-stream.py
lines 211-225): run the `$streams` projection, fetch the index stream,
and on a 200 response map each entry to `entry['title'].replace('0@', '', 1)`. -/
def get_available_streams (enableStatus : Nat) (statusFetch : Nat → Nat × Json)
    (fuel : Nat) (disableStatus : Nat) (indexResp : Nat × Page) : StreamsResult :=
  match run_projection enableStatus statusFetch fuel disableStatus with
  | none => .exited
  | some _ =>
    if indexResp.1 == 200 then
      .streams (indexResp.2.entries.map (fun e => replaceFirst e.title "0@"))
    else .failed

lemma exportEventsGo_ok (fetchEvent : String → Nat × Json) (rec : Entry → Json) :
    ∀ (l : List Entry), (∀ e ∈ l, ∃ u, selfUri e = some u ∧ fetchEvent u = (200, rec e)) →
    exportEventsGo fetchEvent l = some (l.map rec) := by
  intro l
  induction l with
  | nil => intro _; rfl
  | cons e rest ih =>
    intro h
    obtain ⟨u, hu, hf⟩ := h e (List.mem_cons_self e rest)
    match hle : e.links with
    | [] => simp [selfUri, hle] at hu
    | lk :: tl =>
      have huri : lk.uri = u := by simpa [selfUri, hle] using hu
      have hrest := ih (fun x hx => h x (List.mem_cons_of_mem e hx))
      simp [exportEventsGo, hle, huri, hf, hrest]

lemma exportEventsGo_filter (fetchEvent : String → Nat × Json) :
    ∀ (l : List Entry), (∀ e ∈ l, e.links ≠ []) →
    exportEventsGo fetchEvent l =
      some (((l.filter (fun e => (fetchEvent (selfUriD e)).1 == 200)).map
        (fun e => (fetchEvent (selfUriD e)).2))) := by
  intro l
  induction l with
  | nil => intro _; rfl
  | cons e rest ih =>
    intro h
    have hrest := ih (fun x hx => h x (List.mem_cons_of_mem e hx))
    match hle : e.links with
    | [] => exact absurd hle (h e (List.mem_cons_self e rest))
    | lk :: tl =>
      have hself : selfUriD e = lk.uri := by simp [selfUriD, hle]
      by_cases hok : (fetchEvent lk.uri).1 == 200
      · simp [exportEventsGo, hle, hok, hrest, List.filter_cons, hself]
      · simp [exportEventsGo, hle, hok, hrest, List.filter_cons, hself]

/-- Number of successful statuses among the POSTs `k, k+1, ..., k+n-1`. -/
def okCountFrom (postStatus : Nat → Nat) : Nat → Nat → Nat
  | _, 0 => 0
  | k, n + 1 => (if isOkStatus (postStatus k) then 1 else 0) + okCountFrom postStatus (k + 1) n

lemma okCountFrom_le (postStatus : Nat → Nat) :
    ∀ (n k : Nat), okCountFrom postStatus k n ≤ n := by
  intro n
  induction n with
  | zero => intro k; simp [okCountFrom]
  | succ n ih =>
    intro k
    have := ih (k + 1)
    by_cases hok : isOkStatus (postStatus k) <;> (simp [okCountFrom, hok]; omega)

lemma okCountFrom_eq_countP (postStatus : Nat → Nat) :
    ∀ (n k : Nat), okCountFrom postStatus k n =
      (List.range n).countP (fun i => isOkStatus (postStatus (k + i))) := by
  intro n
  induction n with
  | zero => intro k; simp [okCountFrom]
  | succ n ih =>
    intro k
    have hmap : (List.range n).countP (fun i => isOkStatus (postStatus (k + (i + 1)))) =
        (List.range n).countP (fun i => isOkStatus (postStatus (k + 1 + i))) := by
      apply List.countP_congr
      intro a _
      have : k + (a + 1) = k + 1 + a := by omega
      rw [this]
    rw [List.range_succ_eq_map]
    simp only [List.countP_cons, List.countP_map, okCountFrom]
    rw [ih (k + 1)]
    simp only [Function.comp_def, Nat.succ_eq_add_one]
    rw [hmap]
    by_cases hok : isOkStatus (postStatus k)
    · simp [hok]
      omega
    · simp [hok]

lemma importEventsGo_append (postStatus : Nat → Nat) (g : Json → Json × Json × Json) :
    ∀ (rs : List Json), (∀ r ∈ rs, recordTriple r = some (g r)) →
    ∀ (rest : List (Option Json)) (k s0 f0 : Nat),
      importEventsGo postStatus (rs.map some ++ rest) k s0 f0 =
        ((importEventsGo postStatus rest (k + rs.length)
            (s0 + okCountFrom postStatus k rs.length)
            (f0 + (rs.length - okCountFrom postStatus k rs.length))).1,
          rs.map (fun r => payloadJson (g r)) ++
            (importEventsGo postStatus rest (k + rs.length)
              (s0 + okCountFrom postStatus k rs.length)
              (f0 + (rs.length - okCountFrom postStatus k rs.length))).2) := by
  intro rs
  induction rs with
  | nil => intro _ rest k s0 f0; simp [okCountFrom]
  | cons r rs ih =>
    intro h rest k s0 f0
    have hr : recordTriple r = some (g r) := h r (List.mem_cons_self r rs)
    have hpay : mkPayload r = some (payloadJson (g r)) := by simp [mkPayload, hr]
    have hrs : ∀ x ∈ rs, recordTriple x = some (g x) :=
      fun x hx => h x (List.mem_cons_of_mem r hx)
    have hc : okCountFrom postStatus (k + 1) rs.length ≤ rs.length :=
      okCountFrom_le postStatus rs.length (k + 1)
    have e1 : k + 1 + rs.length = k + (rs.length + 1) := by omega
    by_cases hok : isOkStatus (postStatus k)
    · have e2 : s0 + 1 + okCountFrom postStatus (k + 1) rs.length =
          s0 + okCountFrom postStatus k (rs.length + 1) := by
        simp [okCountFrom, hok]; omega
      have e3 : f0 + (rs.length - okCountFrom postStatus (k + 1) rs.length) =
          f0 + ((rs.length + 1) - okCountFrom postStatus k (rs.length + 1)) := by
        simp [okCountFrom, hok]; omega
      simp only [List.map_cons, List.cons_append, importEventsGo, hpay, hok, if_true,
        List.append_eq]
      rw [ih hrs rest (k + 1) (s0 + 1) f0, e1, e2, e3]
      simp [List.length_cons]
    · have e2 : s0 + okCountFrom postStatus (k + 1) rs.length =
          s0 + okCountFrom postStatus k (rs.length + 1) := by
        simp [okCountFrom, hok]
      have e3 : f0 + 1 + (rs.length - okCountFrom postStatus (k + 1) rs.length) =
          f0 + ((rs.length + 1) - okCountFrom postStatus k (rs.length + 1)) := by
        simp [okCountFrom, hok]; omega
      simp only [List.map_cons, List.cons_append, importEventsGo, hpay, hok, if_false,
        List.append_eq, Bool.false_eq_true, Bool.not_eq_true]
      rw [ih hrs rest (k + 1) s0 (f0 + 1), e1, e2, e3]
      simp [List.length_cons]

lemma importEventsGo_mixed (postStatus : Nat → Nat) (g : Json → Json × Json × Json) :
    ∀ (lines : List (Option Json)), (∀ r : Json, some r ∈ lines → recordTriple r = some (g r)) →
    ∀ (k s0 f0 : Nat),
      ∃ s2 f2 posts, importEventsGo postStatus lines k s0 f0 = (some (s0 + s2, f0 + f2), posts)
        ∧ s2 + f2 = lines.countP (fun l => l.isSome)
        ∧ posts.length = lines.countP (fun l => l.isSome) := by
  intro lines
  induction lines with
  | nil => intro _ k s0 f0; exact ⟨0, 0, [], by simp [importEventsGo], by simp, by simp⟩
  | cons line rest ih =>
    intro h k s0 f0
    match line with
    | none =>
      obtain ⟨s2, f2, posts, hgo, hsum, hlen⟩ :=
        ih (fun r hr => h r (List.mem_cons_of_mem none hr)) k s0 f0
      exact ⟨s2, f2, posts, by simpa [importEventsGo] using hgo,
        by simpa using hsum, by simpa using hlen⟩
    | some r =>
      have hr : recordTriple r = some (g r) := h r (List.mem_cons_self (some r) rest)
      have hpay : mkPayload r = some (payloadJson (g r)) := by simp [mkPayload, hr]
      have hrest : ∀ x : Json, some x ∈ rest → recordTriple x = some (g x) :=
        fun x hx => h x (List.mem_cons_of_mem (some r) hx)
      by_cases hok : isOkStatus (postStatus k)
      · obtain ⟨s2, f2, posts, hgo, hsum, hlen⟩ := ih hrest (k + 1) (s0 + 1) f0
        refine ⟨s2 + 1, f2, payloadJson (g r) :: posts, ?_, ?_, ?_⟩
        · have e : s0 + 1 + s2 = s0 + (s2 + 1) := by omega
          simp [importEventsGo, hpay, hok, hgo, e]
        · simp [List.countP_cons]; omega
        · simp [List.countP_cons, hlen]
      · obtain ⟨s2, f2, posts, hgo, hsum, hlen⟩ := ih hrest (k + 1) s0 (f0 + 1)
        refine ⟨s2, f2 + 1, payloadJson (g r) :: posts, ?_, ?_, ?_⟩
        · have e : f0 + 1 + f2 = f0 + (f2 + 1) := by omega
          simp [importEventsGo, hpay, hok, hgo, e]
        · simp [List.countP_cons]; omega
        · simp [List.countP_cons, hlen]

/-- A concrete page with one entry and no `next` link, served with the
2xx status 204. -/
def c2page : Page := ⟨[⟨[], "only-entry"⟩], []⟩

/-- A transport answering every url with status 204 and `c2page`. -/
def c2fetch : String → Nat × Page := fun _ => (204, c2page)

/-- C2 counterexample: a chain of K = 1 pages whose only page has no
`next` link, every fetch returning the 2xx status 204.  The claim
predicts the reader returns that page's entries; the code tests
`status_code != 200`, treats 204 as a failure, and returns the empty
list. -/
theorem C2_counterexample :
    (200 ≤ 204 ∧ 204 < 300) ∧ c2fetch "u" = (204, c2page) ∧
    findNextLink c2page.links = none ∧
    get_stream_events c2fetch 9 "u" ≠ ([c2page].map Page.entries).flatten := by
  refine ⟨by decide, rfl, rfl, ?_⟩
  intro h
  have h2 : ([] : List Entry) = [⟨[], "only-entry"⟩] := h
  exact List.noConfusion h2

/-- C2 (amended: success is status 200 exactly, and any non-200 status —
2xx included — stops pagination): for a chain of K linked pages each
fetched with status 200, only the last lacking a `next` link, the reader
returns the concatenation of all K pages' entries and halts (given fuel
at least K); if the J-th url's fetch returns a non-200 status after J-1
pages fetched with 200, it returns the concatenation of pages 1..J-1 and
halts without propagating an error. -/
theorem C2_pagination (fetch : String → Nat × Page) (url : String)
    (pages : List Page) (fuel : Nat) :
    (Chain fetch url pages → pages.length ≤ fuel →
      get_stream_events fetch fuel url = (pages.map Page.entries).flatten)
    ∧ (ChainFail fetch url pages → pages.length + 1 ≤ fuel →
      get_stream_events fetch fuel url = (pages.map Page.entries).flatten) := by
  constructor
  · intro hc hf
    simpa [get_stream_events] using getStreamEventsGo_chain fetch pages url hc fuel hf []
  · intro hc hf
    simpa [get_stream_events] using getStreamEventsGo_chainFail fetch pages url hc fuel hf []

/-- First page of the two-page witness chain, linking to `u2`. -/
def w2page1 : Page := ⟨[⟨[], "p1e1"⟩], [⟨"next", "u2"⟩]⟩

/-- Last page of the two-page witness chain, with no `next` link. -/
def w2page2 : Page := ⟨[⟨[], "p2e1"⟩], []⟩

/-- A transport serving the full two-page chain with status 200. -/
def w2fetch : String → Nat × Page := fun u =>
  if u == "u1" then (200, w2page1) else if u == "u2" then (200, w2page2) else (500, ⟨[], []⟩)

/-- A transport serving page one with status 200 and failing any other
url with status 500. -/
def w2failFetch : String → Nat × Page := fun u =>
  if u == "u1" then (200, w2page1) else (500, ⟨[], []⟩)

theorem C2_witness :
    get_stream_events w2fetch 2 "u1" = ([w2page1, w2page2].map Page.entries).flatten ∧
    get_stream_events w2failFetch 9 "u1" = ([w2page1].map Page.entries).flatten := by
  constructor
  · exact (C2_pagination w2fetch "u1" [w2page1, w2page2] 2).1
      (Chain.cons "u1" "u2" w2page1 ⟨"next", "u2"⟩ [w2page2] (by decide) rfl rfl rfl
        (Chain.last "u2" w2page2 (by decide) rfl rfl))
      (by decide)
  · exact (C2_pagination w2failFetch "u1" [w2page1] 9).2
      (ChainFail.cons "u1" "u2" w2page1 ⟨"next", "u2"⟩ [] (by decide) rfl rfl rfl
        (ChainFail.fail "u2" (by decide) (by decide)))
      (by decide)

/-- C3: given the entry list in the order received (newest first) and a
transport answering every entry's self link with status 200 and that
entry's event body, the written file's lines are the bodies in reversed
(oldest-first) order, i.e. the record order read back from the file is
exactly the reverse of the input entry list's order. -/
theorem C3_ordering (fetchEvent : String → Nat × Json) (events : List Entry)
    (rec : Entry → Json)
    (h : ∀ e ∈ events, ∃ u, selfUri e = some u ∧ fetchEvent u = (200, rec e)) :
    export_events_to_file fetchEvent events = some (events.reverse.map rec)
    ∧ events.reverse.map rec = (events.map rec).reverse := by
  constructor
  · unfold export_events_to_file
    exact exportEventsGo_ok fetchEvent rec events.reverse
      (fun e he => h e (List.mem_reverse.mp he))
  · simp [List.map_reverse]

/-- C7: the materializer fetches each entry's content individually via
its self link; the entries whose fetch returns a non-200 status are
omitted from the written lines, every other entry's body is written (in
oldest-first order), and the function returns normally (`some`), no
error propagating to the caller. -/
theorem C7_silent_drop (fetchEvent : String → Nat × Json) (events : List Entry)
    (h : ∀ e ∈ events, e.links ≠ []) :
    export_events_to_file fetchEvent events =
      some ((events.reverse.filter (fun e => (fetchEvent (selfUriD e)).1 == 200)).map
        (fun e => (fetchEvent (selfUriD e)).2)) := by
  unfold export_events_to_file
  exact exportEventsGo_filter fetchEvent events.reverse
    (fun e he => h e (List.mem_reverse.mp he))

/-- A well-formed event record with eventId `a`. -/
def wRecA : Json :=
  .obj [("content", .obj [("eventId", .str "a"), ("eventType", .str "T1"),
    ("data", .obj [])])]

/-- A well-formed event record with eventId `b`. -/
def wRecB : Json :=
  .obj [("content", .obj [("eventId", .str "b"), ("eventType", .str "T2"),
    ("data", .obj [])])]

/-- The eventId/eventType/data triple of `wRecA`. -/
def wTriA : Json × Json × Json := (.str "a", .str "T1", .obj [])

/-- The eventId/eventType/data triple of `wRecB`. -/
def wTriB : Json × Json × Json := (.str "b", .str "T2", .obj [])

/-- Witness entry whose self link is `uA`. -/
def wEntryA : Entry := ⟨[⟨"alternate", "uA"⟩], "tA"⟩

/-- Witness entry whose self link is `uB`. -/
def wEntryB : Entry := ⟨[⟨"alternate", "uB"⟩], "tB"⟩

/-- Witness entry whose self link is `uC` (its fetch fails). -/
def wEntryC : Entry := ⟨[⟨"alternate", "uC"⟩], "tC"⟩

/-- Witness transport: serves `wRecA` at `uA` and `wRecB` at `uB` with
status 200, and fails anything else with 404. -/
def wFetchEvent : String → Nat × Json := fun u =>
  if u == "uA" then (200, wRecA) else if u == "uB" then (200, wRecB) else (404, .null)

/-- The event body of each witness entry. -/
def wRec : Entry → Json := fun e => if e.title == "tA" then wRecA else wRecB

/-- The record triple of each witness entry. -/
def wTri : Entry → Json × Json × Json := fun e => if e.title == "tA" then wTriA else wTriB

lemma wFetch_ok : ∀ e ∈ [wEntryB, wEntryA], ∃ u, selfUri e = some u ∧
    wFetchEvent u = (200, wRec e) := by
  intro e he
  simp only [List.mem_cons, List.not_mem_nil, or_false] at he
  rcases he with rfl | rfl
  · exact ⟨"uB", rfl, rfl⟩
  · exact ⟨"uA", rfl, rfl⟩

theorem C3_witness :
    export_events_to_file wFetchEvent [wEntryB, wEntryA] =
      some ([wEntryB, wEntryA].reverse.map wRec)
    ∧ [wEntryB, wEntryA].reverse.map wRec = ([wEntryB, wEntryA].map wRec).reverse :=
  C3_ordering wFetchEvent [wEntryB, wEntryA] wRec wFetch_ok

theorem C7_witness :
    export_events_to_file wFetchEvent [wEntryC, wEntryA] =
      some (([wEntryC, wEntryA].reverse.filter
        (fun e => (wFetchEvent (selfUriD e)).1 == 200)).map
        (fun e => (wFetchEvent (selfUriD e)).2)) :=
  C7_silent_drop wFetchEvent [wEntryC, wEntryA] (by decide)

lemma okCountFrom_of_all_ok (postStatus : Nat → Nat)
    (hall : ∀ i, isOkStatus (postStatus i) = true) :
    ∀ (n k : Nat), okCountFrom postStatus k n = n := by
  intro n
  induction n with
  | zero => intro k; rfl
  | succ n ih =>
    intro k
    have hstep : okCountFrom postStatus k (n + 1) = 1 + okCountFrom postStatus (k + 1) n := by
      simp [okCountFrom, hall k]
    rw [hstep, ih (k + 1)]
    omega

lemma importEventsGo_wf_total (postStatus : Nat → Nat) (g : Json → Json × Json × Json)
    (rs : List Json) (h : ∀ r ∈ rs, recordTriple r = some (g r)) (k s0 f0 : Nat) :
    importEventsGo postStatus (rs.map some) k s0 f0 =
      (some (s0 + okCountFrom postStatus k rs.length,
        f0 + (rs.length - okCountFrom postStatus k rs.length)),
        rs.map (fun r => payloadJson (g r))) := by
  have happ := importEventsGo_append postStatus g rs h [] k s0 f0
  simpa [importEventsGo] using happ

/-- C5: on a record-stream file all of whose lines are well-formed
records, a submission is counted successful exactly when its POST status
is 200 or 201 (`s` is the number of such POSTs), every other status goes
to the failure count (`s + f` covers all records), the writer returns
the final `(success_count, failure_count)` pair, and every record is
POSTed exactly once in file order with no retry and no mid-file abort
(`posts.length` equals the record count). -/
theorem C5_replay_counts (postStatus : Nat → Nat) (rs : List Json)
    (g : Json → Json × Json × Json)
    (h : ∀ r ∈ rs, recordTriple r = some (g r)) :
    ∃ s f posts,
      import_events postStatus (rs.map some) = (some (s, f), posts)
      ∧ s = (List.range rs.length).countP (fun i => isOkStatus (postStatus i))
      ∧ s + f = rs.length
      ∧ posts.length = rs.length := by
  have htot := importEventsGo_wf_total postStatus g rs h 0 0 0
  have hc := okCountFrom_le postStatus rs.length 0
  refine ⟨okCountFrom postStatus 0 rs.length,
    rs.length - okCountFrom postStatus 0 rs.length,
    rs.map (fun r => payloadJson (g r)), ?_, ?_, by omega, by simp⟩
  · simpa [import_events] using htot
  · have := okCountFrom_eq_countP postStatus rs.length 0
    simpa using this

/-- The record triple each well-formed witness record carries. -/
def wG : Json → Json × Json × Json :=
  fun r => (recordTriple r).getD (.null, .null, .null)

lemma wRecA_wf : ∀ r ∈ ([wRecA] : List Json), recordTriple r = some (wG r) := by
  intro r hr
  simp only [List.mem_singleton] at hr
  subst hr
  rfl

lemma wRecB_wf : ∀ r ∈ ([wRecB] : List Json), recordTriple r = some (wG r) := by
  intro r hr
  simp only [List.mem_singleton] at hr
  subst hr
  rfl

lemma wRecAB_wf : ∀ r ∈ ([wRecA, wRecB] : List Json), recordTriple r = some (wG r) := by
  intro r hr
  simp only [List.mem_cons, List.not_mem_nil, or_false] at hr
  rcases hr with rfl | rfl
  · rfl
  · rfl

theorem C5_witness :
    ∃ s f posts,
      import_events (fun k => if k == 0 then 201 else 500) (([wRecA, wRecB] : List Json).map some) =
        (some (s, f), posts)
      ∧ s = (List.range ([wRecA, wRecB] : List Json).length).countP
          (fun i => isOkStatus (if i == 0 then 201 else 500))
      ∧ s + f = ([wRecA, wRecB] : List Json).length
      ∧ posts.length = ([wRecA, wRecB] : List Json).length :=
  C5_replay_counts (fun k => if k == 0 then 201 else 500) [wRecA, wRecB] wG wRecAB_wf

/-- C6 counterexample: the file with M = 1 line that parses as valid
JSON (the object `{}`) followed by 1 malformed line.  The claim predicts
the writer reports M successes or fewer and merely skips the malformed
line; but the valid-JSON line is not a well-formed record, so
`import_event` raises an uncaught KeyError on `event['content']` and
`import_events` aborts: no counts are ever reported (first component
`none`, never `some`) and nothing is POSTed. -/
theorem C6_counterexample :
    (import_events (fun _ => 200) [some (Json.obj []), none]).2 = [] ∧
    ¬ ∃ s f : Nat,
      (import_events (fun _ => 200) [some (Json.obj []), none]).1 = some (s, f) := by
  constructor
  · rfl
  · intro hex
    obtain ⟨s, f, hsf⟩ := hex
    have hnone : (import_events (fun _ => 200) [some (Json.obj []), none]).1 = none := rfl
    rw [hnone] at hsf
    exact Option.noConfusion hsf

/-- C6 (amended: the valid lines must be well-formed event records — a
valid-JSON line without the content/eventId/eventType/data fields
instead raises an uncaught error that aborts the import with no totals
reported): a file holding the well-formed records `as`, then one
malformed line, then the well-formed records `bs`: the writer returns
counts covering exactly the `as.length + bs.length` valid records (so
the malformed line aborted nothing and the lines after it were all
processed), POSTs each of them exactly once, reports at most that many
successes, and reports exactly that many when every submission returns
a success status. -/
theorem C6_failure_isolation (postStatus : Nat → Nat) (as bs : List Json)
    (g : Json → Json × Json × Json)
    (ha : ∀ r ∈ as, recordTriple r = some (g r))
    (hb : ∀ r ∈ bs, recordTriple r = some (g r)) :
    ∃ s f posts,
      import_events postStatus (as.map some ++ [none] ++ bs.map some) = (some (s, f), posts)
      ∧ s + f = as.length + bs.length
      ∧ posts.length = as.length + bs.length
      ∧ s ≤ as.length + bs.length
      ∧ ((∀ i, isOkStatus (postStatus i) = true) →
          s = as.length + bs.length ∧ f = 0) := by
  have hstep := importEventsGo_append postStatus g as ha (none :: bs.map some) 0 0 0
  have hskip : importEventsGo postStatus (none :: bs.map some) (0 + as.length)
      (0 + okCountFrom postStatus 0 as.length)
      (0 + (as.length - okCountFrom postStatus 0 as.length)) =
      importEventsGo postStatus (bs.map some) (0 + as.length)
      (0 + okCountFrom postStatus 0 as.length)
      (0 + (as.length - okCountFrom postStatus 0 as.length)) := rfl
  have htot := importEventsGo_wf_total postStatus g bs hb (0 + as.length)
      (0 + okCountFrom postStatus 0 as.length)
      (0 + (as.length - okCountFrom postStatus 0 as.length))
  have hc1 := okCountFrom_le postStatus as.length 0
  have hc2 := okCountFrom_le postStatus bs.length (0 + as.length)
  refine ⟨0 + okCountFrom postStatus 0 as.length +
      okCountFrom postStatus (0 + as.length) bs.length,
    0 + (as.length - okCountFrom postStatus 0 as.length) +
      (bs.length - okCountFrom postStatus (0 + as.length) bs.length),
    as.map (fun r => payloadJson (g r)) ++ bs.map (fun r => payloadJson (g r)),
    ?_, by omega, by simp, by omega, ?_⟩
  · have heq : import_events postStatus (as.map some ++ [none] ++ bs.map some) =
        importEventsGo postStatus (as.map some ++ (none :: bs.map some)) 0 0 0 := by
      simp [import_events, List.append_assoc]
    rw [heq, hstep, hskip, htot]
  · intro hall
    have h1 := okCountFrom_of_all_ok postStatus hall as.length 0
    have h2 := okCountFrom_of_all_ok postStatus hall bs.length (0 + as.length)
    omega

theorem C6_witness :
    ∃ s f posts,
      import_events (fun _ => 200) (([wRecA] : List Json).map some ++ [none] ++
        ([wRecB] : List Json).map some) = (some (s, f), posts)
      ∧ s + f = ([wRecA] : List Json).length + ([wRecB] : List Json).length
      ∧ posts.length = ([wRecA] : List Json).length + ([wRecB] : List Json).length
      ∧ s ≤ ([wRecA] : List Json).length + ([wRecB] : List Json).length
      ∧ ((∀ _i : Nat, isOkStatus 200 = true) →
          s = ([wRecA] : List Json).length + ([wRecB] : List Json).length ∧ f = 0) :=
  C6_failure_isolation (fun _ => 200) [wRecA] [wRecB] wG wRecA_wf wRecB_wf

/-- C10 counterexample: the single line `{}` parses as valid JSON, so
the claim predicts reported totals with success + failure = 1; but
`import_event` raises an uncaught KeyError on `event['content']`, so
`import_events` aborts and never produces any counts at all. -/
theorem C10_counterexample :
    ¬ ∃ s f : Nat, (import_events (fun _ => 200) [some (Json.obj [])]).1 = some (s, f) := by
  intro hex
  obtain ⟨s, f, hsf⟩ := hex
  have hnone : (import_events (fun _ => 200) [some (Json.obj [])]).1 = none := rfl
  rw [hnone] at hsf
  exact Option.noConfusion hsf

/-- C10 (amended: restricted to files whose valid-JSON lines are all
well-formed event records — a valid-JSON line without the
content/eventId/eventType/data fields instead raises an uncaught error
and aborts the import with no totals reported): the writer reports
counts with success + failure equal to the number of lines that parse
as valid JSON; a line that fails JSON parsing increments neither count. -/
theorem C10_accounting (postStatus : Nat → Nat) (lines : List (Option Json))
    (g : Json → Json × Json × Json)
    (h : ∀ r : Json, some r ∈ lines → recordTriple r = some (g r)) :
    ∃ s f posts, import_events postStatus lines = (some (s, f), posts)
      ∧ s + f = lines.countP (fun l => l.isSome) := by
  obtain ⟨s2, f2, posts, hgo, hsum, _⟩ := importEventsGo_mixed postStatus g lines h 0 0 0
  exact ⟨s2, f2, posts, by simpa [import_events] using hgo, hsum⟩

theorem C10_witness :
    ∃ s f posts,
      import_events (fun _ => 200) [some wRecA, none] = (some (s, f), posts)
      ∧ s + f = ([some wRecA, none] : List (Option Json)).countP (fun l => l.isSome) :=
  C10_accounting (fun _ => 200) [some wRecA, none] wG (by
    intro r hr
    simp only [List.mem_cons, List.not_mem_nil, or_false] at hr
    rcases hr with h1 | h1
    · cases Option.some.inj h1
      rfl
    · exact Option.noConfusion h1)

/-- C4: importing a `.zip` or `.tar.xz` archive whose extracted contents
hold zero `.json` files, or two or more, takes the fatal `exit()` path,
and that path performs zero append requests. -/
theorem C4_member_guard (postStatus : Nat → Nat) (fname : String)
    (readLines : List (Option Json)) (members : List (String × List (Option Json)))
    (hext : joinedSuffixes fname = ".zip" ∨ joinedSuffixes fname = ".tar.xz")
    (hcount : (members.filter (fun m => strEndsWith m.1 ".json")).length = 0 ∨
      2 ≤ (members.filter (fun m => strEndsWith m.1 ".json")).length) :
    process_import_file postStatus fname readLines members = .fatal ∧
    procPosts (process_import_file postStatus fname readLines members) = [] := by
  have hfatal : importExtracted postStatus members = .fatal := by
    unfold importExtracted
    rcases hcount with h0 | h2
    · simp [h0]
    · have hgt : (members.filter (fun m => strEndsWith m.1 ".json")).length > 1 := by omega
      simp [hgt]
  have hp : process_import_file postStatus fname readLines members = .fatal := by
    rcases hext with hx | hx <;> simp [process_import_file, hx, hfatal]
  exact ⟨hp, by rw [hp]; rfl⟩

theorem C4_witness :
    (process_import_file (fun _ => 200) "a.zip" [] [("readme.txt", [])] = .fatal ∧
      procPosts (process_import_file (fun _ => 200) "a.zip" [] [("readme.txt", [])]) = []) ∧
    (process_import_file (fun _ => 200) "b.tar.xz" []
        [("x.json", []), ("y.json", [])] = .fatal ∧
      procPosts (process_import_file (fun _ => 200) "b.tar.xz" []
        [("x.json", []), ("y.json", [])]) = []) := by
  constructor
  · exact C4_member_guard (fun _ => 200) "a.zip" [] [("readme.txt", [])]
      (Or.inl (by decide)) (Or.inl (by decide))
  · exact C4_member_guard (fun _ => 200) "b.tar.xz" [] [("x.json", []), ("y.json", [])]
      (Or.inr (by decide)) (Or.inr (by decide))

/-- C8: extension dispatch on both sides.  A `.json` or extensionless
path writes the record stream directly on export and feeds the path's
lines directly to the replay writer on import; a `.zip` path wraps the
stream as the single member `events.json` of a zip container on export
and goes through extraction on import; `.tar.xz` likewise with the
xz-tar container; any other extension is rejected as unsupported on both
sides, writing nothing and importing nothing. -/
theorem C8_dispatch (fetchEvent : String → Nat × Json) (events : List Entry)
    (fname : String) (postStatus : Nat → Nat) (readLines : List (Option Json))
    (members : List (String × List (Option Json))) (lines : List Json)
    (hexp : export_events_to_file fetchEvent events = some lines) :
    ((joinedSuffixes fname = ".json" ∨ joinedSuffixes fname = "") →
      export_events fetchEvent events fname = .file lines ∧
      process_import_file postStatus fname readLines members =
        .imported (import_events postStatus readLines).1 (import_events postStatus readLines).2)
    ∧ (joinedSuffixes fname = ".zip" →
      export_events fetchEvent events fname = .archive .zip [("events.json", lines)] ∧
      process_import_file postStatus fname readLines members = importExtracted postStatus members)
    ∧ (joinedSuffixes fname = ".tar.xz" →
      export_events fetchEvent events fname = .archive .tarxz [("events.json", lines)] ∧
      process_import_file postStatus fname readLines members = importExtracted postStatus members)
    ∧ ((joinedSuffixes fname ≠ ".json" ∧ joinedSuffixes fname ≠ "" ∧
        joinedSuffixes fname ≠ ".zip" ∧ joinedSuffixes fname ≠ ".tar.xz") →
      export_events fetchEvent events fname = .unsupported ∧
      process_import_file postStatus fname readLines members = .unsupported) := by
  refine ⟨?_, ?_, ?_, ?_⟩
  · intro hx
    rcases hx with hx | hx <;>
      exact ⟨by simp [export_events, hx, hexp], by simp [process_import_file, hx]⟩
  · intro hx
    exact ⟨by simp [export_events, hx, hexp], by simp [process_import_file, hx]⟩
  · intro hx
    exact ⟨by simp [export_events, hx, hexp], by simp [process_import_file, hx]⟩
  · intro hx
    obtain ⟨h1, h2, h3, h4⟩ := hx
    have b1 : (joinedSuffixes fname == ".json") = false := beq_eq_false_iff_ne.mpr h1
    have b2 : (joinedSuffixes fname == "") = false := beq_eq_false_iff_ne.mpr h2
    have b3 : (joinedSuffixes fname == ".zip") = false := beq_eq_false_iff_ne.mpr h3
    have b4 : (joinedSuffixes fname == ".tar.xz") = false := beq_eq_false_iff_ne.mpr h4
    exact ⟨by simp [export_events, b1, b2, b3, b4],
      by simp [process_import_file, b1, b2, b3, b4]⟩

theorem C8_witness :
    (export_events wFetchEvent [wEntryA] "d/e.json" = .file [wRecA] ∧
      process_import_file (fun _ => 200) "d/e.json" [] [] =
        .imported (import_events (fun _ => 200) []).1 (import_events (fun _ => 200) []).2)
    ∧ (export_events wFetchEvent [wEntryA] "e.dat" = .unsupported ∧
      process_import_file (fun _ => 200) "e.dat" [] [] = .unsupported) := by
  constructor
  · exact (C8_dispatch wFetchEvent [wEntryA] "d/e.json" (fun _ => 200) [] [] [wRecA] rfl).1
      (Or.inl (by decide))
  · exact (C8_dispatch wFetchEvent [wEntryA] "e.dat" (fun _ => 200) [] [] [wRecA]
      rfl).2.2.2 ⟨by decide, by decide, by decide, by decide⟩

lemma removeFirstOcc_of_isPrefix (pat : List Char) :
    ∀ (l : List Char), isPrefixList pat l = true →
      removeFirstOcc pat l = l.drop pat.length := by
  intro l h
  match l with
  | [] => simp [removeFirstOcc]
  | x :: xs => simp [removeFirstOcc, h]

/-- Status oracle reporting the projection complete at the first poll. -/
def c9statusFetch : Nat → Nat × Json := fun _ => (200, .obj [("progress", .num 100)])

/-- An index-stream page whose entry's title holds `0@` in the middle,
not at the front. -/
def c9badPage : Page := ⟨[⟨[], "x0@y"⟩], []⟩

/-- An index-stream page with the standard `0@`-prefixed title shape. -/
def c9page : Page := ⟨[⟨[], "0@alpha"⟩], []⟩

/-- C9 counterexample: for the fetched index entry titled `x0@y`, the
claim predicts the name `x0@y` itself (no prefix token at the front to
strip, rest unchanged), but `title.replace('0@', '', 1)` removes the
first occurrence anywhere and produces `xy`. -/
theorem C9_counterexample :
    get_available_streams 200 c9statusFetch 1 200 (200, c9badPage) = .streams ["xy"] ∧
    stripPrefixToken "x0@y" = "x0@y" ∧ ("xy" : String) ≠ "x0@y" := by
  refine ⟨by decide, by decide, by decide⟩

/-- C9 (amended: the produced stream name is the entry's title with the
first occurrence of the token `0@` removed, wherever it occurs; for a
title that starts with the token — the index stream's standard format —
this coincides with stripping the positional prefix token from the front
and leaving the rest unchanged): after the projection completes (enable
returned 200) and the index fetch returns 200, the result is exactly the
titles so transformed. -/
theorem C9_stream_names (enableStatus : Nat) (statusFetch : Nat → Nat × Json)
    (fuel disableStatus : Nat) (indexResp : Nat × Page)
    (hen : enableStatus = 200) (hidx : indexResp.1 = 200) :
    get_available_streams enableStatus statusFetch fuel disableStatus indexResp =
      .streams (indexResp.2.entries.map (fun e => replaceFirst e.title "0@"))
    ∧ ∀ e ∈ indexResp.2.entries, isPrefixList "0@".data e.title.data = true →
        replaceFirst e.title "0@" = stripPrefixToken e.title := by
  constructor
  · subst hen
    simp [get_available_streams, run_projection, hidx]
  · intro e _ hpref
    have hro := removeFirstOcc_of_isPrefix "0@".data e.title.data hpref
    have hlen : ("0@".data).length = 2 := rfl
    simp [replaceFirst, stripPrefixToken, hpref, hro, hlen]

theorem C9_witness :
    get_available_streams 200 c9statusFetch 1 200 (200, c9page) = .streams ["alpha"] ∧
    replaceFirst "0@alpha" "0@" = stripPrefixToken "0@alpha" := by
  have h := C9_stream_names 200 c9statusFetch 1 200 (200, c9page) rfl rfl
  refine ⟨?_, ?_⟩
  · rw [h.1]
    decide
  · exact h.2 ⟨[], "0@alpha"⟩ (by decide) (by decide)

/-- C1: exporting N well-formed event records (each entry's self-link
fetch answering 200 with a record carrying the triple `tri e`) to a
`.json`, `.zip` or `.tar.xz` file and importing that file into a fresh
stream causes exactly N append requests, whose eventId/eventType/data
triples equal the exported record sequence (oldest first) in the same
order. -/
theorem C1_roundtrip (fetchEvent : String → Nat × Json) (events : List Entry)
    (fname : String) (postStatus : Nat → Nat)
    (rec : Entry → Json) (tri : Entry → Json × Json × Json)
    (hext : joinedSuffixes fname = ".json" ∨ joinedSuffixes fname = ".zip" ∨
      joinedSuffixes fname = ".tar.xz")
    (hfetch : ∀ e ∈ events, ∃ u, selfUri e = some u ∧ fetchEvent u = (200, rec e))
    (htri : ∀ e ∈ events, recordTriple (rec e) = some (tri e)) :
    ∃ s f, importExported postStatus fname (export_events fetchEvent events fname) =
        some (.imported (some (s, f)) (events.reverse.map (fun e => payloadJson (tri e))))
      ∧ s + f = events.length
      ∧ (events.reverse.map (fun e => payloadJson (tri e))).length = events.length := by
  have hexp : export_events_to_file fetchEvent events = some (events.reverse.map rec) := by
    unfold export_events_to_file
    exact exportEventsGo_ok fetchEvent rec events.reverse
      (fun e he => hfetch e (List.mem_reverse.mp he))
  have hg : ∀ r ∈ events.reverse.map rec, recordTriple r = some (wG r) := by
    intro r hr
    obtain ⟨e, he, rfl⟩ := List.mem_map.mp hr
    have he2 := List.mem_reverse.mp he
    rw [htri e he2]
    simp [wG, htri e he2]
  have hposts : (events.reverse.map rec).map (fun r => payloadJson (wG r)) =
      events.reverse.map (fun e => payloadJson (tri e)) := by
    rw [List.map_map]
    apply List.map_congr_left
    intro e he
    have he2 := List.mem_reverse.mp he
    simp [Function.comp, wG, htri e he2]
  have hIE := importEventsGo_wf_total postStatus wG (events.reverse.map rec) hg 0 0 0
  have hc := okCountFrom_le postStatus (events.reverse.map rec).length 0
  have hlen : (events.reverse.map rec).length = events.length := by simp
  have hej : strEndsWith "events.json" ".json" = true := by decide
  generalize hrs : events.reverse.map rec = rs at hexp hposts hIE hc hlen
  refine ⟨okCountFrom postStatus 0 rs.length,
    rs.length - okCountFrom postStatus 0 rs.length,
    ?_, by omega, by simp⟩
  rcases hext with hx | hx | hx
  · have hef : export_events fetchEvent events fname = .file rs := by
      simp [export_events, hx, hexp]
    rw [hef]
    simp [importExported, process_import_file, hx, import_events, hIE, hposts]
  · have hef : export_events fetchEvent events fname =
        .archive .zip [("events.json", rs)] := by
      simp [export_events, hx, hexp]
    rw [hef]
    simp [importExported, process_import_file, importExtracted, hx, hej,
      import_events, hIE, hposts]
  · have hef : export_events fetchEvent events fname =
        .archive .tarxz [("events.json", rs)] := by
      simp [export_events, hx, hexp]
    rw [hef]
    simp [importExported, process_import_file, importExtracted, hx, hej,
      import_events, hIE, hposts]

lemma wTri_wf : ∀ e ∈ [wEntryB, wEntryA], recordTriple (wRec e) = some (wTri e) := by
  intro e he
  simp only [List.mem_cons, List.not_mem_nil, or_false] at he
  rcases he with rfl | rfl
  · rfl
  · rfl

theorem C1_witness :
    ∃ s f, importExported (fun _ => 201) "out.zip"
        (export_events wFetchEvent [wEntryB, wEntryA] "out.zip") =
      some (.imported (some (s, f))
        (([wEntryB, wEntryA] : List Entry).reverse.map (fun e => payloadJson (wTri e))))
      ∧ s + f = ([wEntryB, wEntryA] : List Entry).length
      ∧ (([wEntryB, wEntryA] : List Entry).reverse.map
          (fun e => payloadJson (wTri e))).length = ([wEntryB, wEntryA] : List Entry).length :=
  C1_roundtrip wFetchEvent [wEntryB, wEntryA] "out.zip" (fun _ => 201) wRec wTri
    (Or.inr (Or.inl (by decide))) wFetch_ok wTri_wf
